import Mathlib

/-!
Verification of the Task Notification Scheduler of the opportune-moments
server against its specification.

The development shallowly embeds the scheduler-relevant logic of
`src/server.js` and the token format of the encryption codec
(`src/unnamed/part_000`, i.e. `crypto.js`).  Conventions of the embedding:

* A MongoDB user document becomes the `User` structure.  Optional document
  fields (`tasks`, `interactions`, the three timestamps) are `Option`s,
  because the JavaScript code distinguishes an absent field (`undefined`)
  from a present one, and several code paths throw on `undefined`.
* Timestamps are modelled as `Int` milliseconds (the value of
  `new Date(x).getTime()` for the stored `toLocaleString()` string).  Every
  comparison in the source has the shape `Math.abs(a - b) / 1000 < k` (or
  `> k`); over integer milliseconds this is exactly `(a - b).natAbs < 1000*k`
  (resp. `>`), since `|d| / 1000 < k ↔ |d| < 1000 * k` for real division.
* `new Date()` taken at different points of one request is modelled as the
  single instant `now`: the source stores `toLocaleString()` values with
  one-second granularity and the claims do not depend on sub-request drift.
* The random choice `Math.floor(Math.random() * len)` is an explicit
  parameter `rand : Nat`; in the source it always lies in `[0, len)`.
* The encryption codec and the WHATWG URL parser are external collaborators
  (`node:crypto`, `URL`); scheduler functions take `enc`/`dec` and
  `parseHostname` as function parameters.  `dec` is total: decryption of a
  well-formed stored ciphertext does not throw.  The one decryption that
  does throw in the source — `decrypt(undefined)` when a task has no
  `account` field, since `undefined.split` is a TypeError — is modelled
  explicitly by matching on the `Option`.
* A JavaScript exception that a `try`/`catch` absorbs becomes the
  documented fallback value; an exception that escapes the route handler
  becomes the `serverError` outcome.
-/

namespace OpportuneMoments

/-! ## Data model (spec section 3, mirroring the MongoDB documents) -/

/-- A stored remedial task: `{type, domain, account?}` with `domain` and
`account` held as ciphertext.  `createTwoFaTask` pushes tasks without an
`account` field; `createCompromisedPwTask` pushes tasks with one. -/
structure Task where
  type : String
  domain : String
  account : Option String
  deriving DecidableEq

/-- A recorded interaction: `{date, type, domain, affirmative?, survey?}`
with `domain` ciphertext and `date` the parsed timestamp of the stored
locale string. -/
structure Interaction where
  date : Int
  type : String
  domain : String
  affirmative : Option Bool
  survey : Option String
  deriving DecidableEq

/-- One user document of the `users` collection. -/
structure User where
  email : String
  initial : Bool
  lastAccessDate : Option Int
  lastNotificationDate : Option Int
  lastSurveyDate : Option Int
  tasks : Option (List Task)
  interactions : Option (List Interaction)
  deriving DecidableEq

/-- The body of a task response built at the end of `getNextTask`:
`{type, domain: decrypt(...), account: decrypt(...) || undefined}`. -/
structure TaskResponse where
  type : String
  domain : String
  account : Option String
  deriving DecidableEq

/-- The body of a survey response built at the end of
`getNextTaskWithoutSurvey`: `{type, domain, affirmative, survey: true}`. -/
structure SurveyResponse where
  type : String
  domain : String
  affirmative : Option Bool
  survey : Bool
  deriving DecidableEq

/-! ## Task scheduler (`getNextTask`, server.js lines 179-213) -/

/-- The filter of server.js lines 190-194: keep the tasks for which no
interaction has the same `type` and the same decrypted `domain`
(`tasks` and `interactions` default to `[]` via `|| []`). -/
def relevantTasksOf (dec : String → String) (user : User) : List Task :=
  (user.tasks.getD []).filter (fun task =>
    !((user.interactions.getD []).any (fun i =>
      i.type == task.type && dec i.domain == dec task.domain)))

/-- The `isRelevant` guard of server.js line 187: true when
`lastNotificationDate` is unset or more than one hour from `now`. -/
def notifRelevant (user : User) (now : Int) : Bool :=
  match user.lastNotificationDate with
  | none => true
  | some d => decide (60 * 60 * 1000 < (now - d).natAbs)

/-- `getNextTask` (server.js lines 179-213).  Returns the response (if any)
and the user document as left in the store.  Mirrors the source order:
`lastNotificationDate` is written *before* the response object is built, so
when the selected task has no `account` field the `decrypt(task.account)`
TypeError is caught, `undefined` is returned, and the write stays.
`decrypt(task.account) || undefined` turns an empty decryption into an
absent `account` field. -/
def getNextTask (dec : String → String) (user : User) (now : Int) (rand : Nat) :
    Option TaskResponse × User :=
  if (relevantTasksOf dec user).isEmpty || !notifRelevant user now then (none, user)
  else
    match (relevantTasksOf dec user)[rand]? with
    | none => (none, user)
    | some task =>
      match task.account with
      | none => (none, { user with lastNotificationDate := some now })
      | some acc =>
        (some { type := task.type, domain := dec task.domain,
                account := if dec acc = "" then none else some (dec acc) },
         { user with lastNotificationDate := some now })

/-! ## Survey gate (`getNextTaskWithoutSurvey`, server.js lines 144-177) -/

/-- The debounce of server.js line 151: `lastSurveyDate` set and less than
one minute from `now`. -/
def surveyDebounced (user : User) (now : Int) : Bool :=
  match user.lastSurveyDate with
  | none => false
  | some d => decide ((now - d).natAbs < 60 * 1000)

/-- The eligibility filter of server.js line 156: `survey` absent and the
interaction date more than ten minutes from `now` — the source takes
`Math.abs` of the difference, so a future-dated interaction also passes. -/
def eligibleSurveyFilter (now : Int) (i : Interaction) : Bool :=
  i.survey == none && decide (10 * 60 * 1000 < (i.date - now).natAbs)

/-- `getNextTaskWithoutSurvey` (server.js lines 144-177).  Notes kept from
the source:

* `user.interactions.filter` throws when the field is absent; the
  surrounding `try` turns that into `undefined` with no write.
* the `.sort((a, b) => a.date - b.date)` of line 157 subtracts the stored
  *locale strings*; the subtraction is `NaN`, `SortCompare` treats a `NaN`
  comparator result as `+0`, and the (stable) sort leaves the filtered
  array in stored order — so the head of the filtered list is taken,
  not the oldest element.
* `lastSurveyDate` is written before the response is built. -/
def getNextTaskWithoutSurvey (dec : String → String) (user : User) (now : Int) :
    Option SurveyResponse × User :=
  if surveyDebounced user now then (none, user)
  else
    match user.interactions with
    | none => (none, user)
    | some inters =>
      match inters.filter (eligibleSurveyFilter now) with
      | [] => (none, user)
      | task :: _ =>
        (some { type := task.type, domain := dec task.domain,
                affirmative := task.affirmative, survey := true },
         { user with lastSurveyDate := some now })

/-! ## Task generator (`createTwoFaTask`, server.js lines 99-125, and the
bootstrap of `initializeUser`, lines 127-133) -/

/-- `createTwoFaTask` (server.js lines 99-125): decrypt-and-compare
existence check, then a `$push` of `{type: "2fa", domain: encrypt(domain)}`
— no `account` field. -/
def createTwoFaTask (enc dec : String → String) (user : User) (domain : String) : User :=
  let taskExists :=
    match user.tasks with
    | none => false
    | some ts => ts.any (fun task => dec task.domain == domain && task.type == "2fa")
  if taskExists then user
  else
    let newTasks := user.tasks.getD [] ++ [{ type := "2fa", domain := enc domain, account := none }]
    { user with tasks := some newTasks }

/-- One breach record as returned by the breach lookup collaborator. -/
structure Breach where
  name : String
  domain : String
  deriving DecidableEq

/-- `initializeUser` (server.js lines 127-133): insert
`{email, initial: true}`, set `lastAccessDate`, then push one `pw` task per
breach of the primary email, each tagged `account = encrypt(email)`
(`createCompromisedPwTask`, lines 79-97).  `$push` on an absent `tasks`
field creates the array, so with zero breaches the field stays absent.
In the source each `encrypt` call draws a fresh IV; the claims settled
here do not depend on that freshness, so a single `enc` function stands
for the codec. -/
def bootstrapUser (enc : String → String) (email : String) (now : Int)
    (breaches : List Breach) : User :=
  let tasks := breaches.map (fun b =>
    ({ type := "pw", domain := enc b.domain, account := some (enc email) } : Task))
  { email := email, initial := true, lastAccessDate := some now,
    lastNotificationDate := none, lastSurveyDate := none,
    tasks := if tasks.isEmpty then none else some tasks,
    interactions := none }

/-! ## 2FA directory check (`check2FA`, server.js lines 38-51) -/

/-- One entry of the static 2FA directory (the `entry[1]` object of the
JSON data): a primary domain and optional alias domains. -/
structure DirEntry where
  domain : String
  additionalDomains : Option (List String)
  deriving DecidableEq

/-- JavaScript `s.includes(pat)`: `pat` occurs as a contiguous substring. -/
def jsIncludes (s pat : String) : Bool :=
  s.data.tails.any (fun t => pat.data.isPrefixOf t)

/-- `check2FA` (server.js lines 38-51): substring match of the page domain
against each primary directory domain, falling back to the
`additional-domains` aliases. -/
def check2FA (directory : List DirEntry) (domain : String) : Bool :=
  let isAvailable := directory.any (fun e => jsIncludes domain e.domain)
  if !isAvailable then
    directory.any (fun e =>
      match e.additionalDomains with
      | none => false
      | some ds => ds.any (fun d => jsIncludes domain d))
  else isAvailable

/-! ## Access gate and the `/popup` route (server.js lines 135-142 and
220-268) -/

/-- The throttle test of server.js line 239: `lastAccessDate` set and less
than five minutes from the current instant. -/
def accessThrottled (user : User) (now : Int) : Bool :=
  match user.lastAccessDate with
  | none => false
  | some d => decide ((now - d).natAbs < 5 * 60 * 1000)

/-- The possible outcomes of a `/popup` request.  `badRequest` is the 400
for a missing email, `noContent` the 204, `initialResponse` the
`{initial: true}` body, and `serverError` an exception that escapes the
route handler (the `new URL(...)` TypeError of line 227). -/
inductive PopupResult where
  | badRequest
  | serverError
  | noContent
  | initialResponse
  | surveyPayload (s : SurveyResponse)
  | taskPayload (t : TaskResponse)
  deriving DecidableEq

/-- The `/popup` handler (server.js lines 220-268), threading the single
user document through its stages in source order:

1. missing/empty `email` → 400 (line 223);
2. `new URL(req.body.url).hostname` (line 227) — parse failure throws
   before any user-state access, modelled as `serverError`;
3. for an existing user, the access gate (lines 236-243): throttled → 204
   with nothing written, otherwise `lastAccessDate := now`;
4. a missing user is bootstrapped and, like a still-`initial` user,
   answered with `{initial: true}` (lines 245-251);
5. the survey gate, then lazy 2FA task creation for the page domain, then
   the task scheduler; an empty-handed scheduler yields 204.

`parseHostname` stands for the `URL` collaborator, `breaches` for the
breach lookup of the bootstrapped email, `directory` for the 2FA JSON
data, and `rand` for the scheduler's random draw. -/
def popup (enc dec : String → String) (parseHostname : Option String → Option String)
    (directory : List DirEntry) (breaches : List Breach)
    (email? : Option String) (url? : Option String)
    (user? : Option User) (now : Int) (rand : Nat) : PopupResult × Option User :=
  if email?.getD "" = "" then (.badRequest, user?)
  else
    match parseHostname url? with
    | none => (.serverError, user?)
    | some domain =>
      match user? with
      | none => (.initialResponse, some (bootstrapUser enc (email?.getD "") now breaches))
      | some user =>
        if accessThrottled user now then (.noContent, some user)
        else
          if user.initial then (.initialResponse, some { user with lastAccessDate := some now })
          else
            match getNextTaskWithoutSurvey dec { user with lastAccessDate := some now } now with
            | (some s, user2) => (.surveyPayload s, some user2)
            | (none, user2) =>
              match getNextTask dec
                  (if check2FA directory domain then createTwoFaTask enc dec user2 domain
                   else user2) now rand with
              | (some t, user4) => (.taskPayload t, some user4)
              | (none, user4) => (.noContent, some user4)

/-! ## Survey submission (`/survey`, server.js lines 300-327) -/

/-- Outcome of a `/survey` request: 201 or 400. -/
inductive SurveyStatus where
  | created
  | badRequest
  deriving DecidableEq

/-- The find predicate of server.js lines 305-307: same `type`, same
decrypted `domain`, `survey` still absent. -/
def openInteractionPred (dec : String → String) (taskType domain : String)
    (i : Interaction) : Bool :=
  i.type == taskType && dec i.domain == domain && i.survey == none

/-- The `$set` with `arrayFilters` of server.js lines 312-322: every array
element with the found interaction's `type`, its exact ciphertext `domain`
and a still-absent `survey` gets its `survey` field written. -/
def applySurveyUpdate (found : Interaction) (feedback : String)
    (inters : List Interaction) : List Interaction :=
  inters.map (fun i =>
    if i.type == found.type && i.domain == found.domain && i.survey == none then
      { i with survey := some feedback }
    else i)

/-- The `/survey` handler (server.js lines 300-327).  A missing user or a
missing `interactions` field throws inside the `try` → 400, nothing
written.  No matching open interaction → 400, nothing written.  Otherwise
`$set` with `arrayFilters` on `(type, ciphertext domain, survey absent)`
writes the `survey` field of every array element matching the *found*
interaction's type and ciphertext domain (the driver serializes the
`undefined` filter value as `null`, which matches the absent field). -/
def submitSurvey (dec : String → String) (user? : Option User)
    (taskType domain feedback : String) : SurveyStatus × Option User :=
  match user? with
  | none => (.badRequest, none)
  | some user =>
    match user.interactions with
    | none => (.badRequest, some user)
    | some inters =>
      match inters.find? (openInteractionPred dec taskType domain) with
      | none => (.badRequest, some user)
      | some found =>
        (.created, some { user with interactions := some (applySurveyUpdate found feedback inters) })

/-! ## Structural lemmas about the scheduler stages -/

theorem getNextTask_snd (dec : String → String) (user : User) (now : Int) (rand : Nat) :
    (getNextTask dec user now rand).2 = user
    ∨ (getNextTask dec user now rand).2 = { user with lastNotificationDate := some now } := by
  unfold getNextTask
  split
  · exact Or.inl rfl
  · split
    · exact Or.inl rfl
    · split
      · exact Or.inr rfl
      · exact Or.inr rfl

theorem getNextTask_some_inv (dec : String → String) (user : User) (now : Int) (rand : Nat)
    (resp : TaskResponse) (h : (getNextTask dec user now rand).1 = some resp) :
    ∃ task acc, (relevantTasksOf dec user)[rand]? = some task ∧ task.account = some acc ∧
      getNextTask dec user now rand =
        (some { type := task.type, domain := dec task.domain,
                account := if dec acc = "" then none else some (dec acc) },
         { user with lastNotificationDate := some now }) := by
  revert h
  unfold getNextTask
  split
  · intro h; exact absurd h (by simp)
  · split
    · intro h; exact absurd h (by simp)
    · split
      · intro h; exact absurd h (by simp)
      · intro h
        exact ⟨_, _, by assumption, by assumption, rfl⟩

theorem getNextTask_none_of_cooldown (dec : String → String) (user : User) (now : Int)
    (rand : Nat) (h : notifRelevant user now = false) :
    getNextTask dec user now rand = (none, user) := by
  unfold getNextTask
  rw [h]
  simp

theorem getNextTaskWithoutSurvey_snd (dec : String → String) (user : User) (now : Int) :
    (getNextTaskWithoutSurvey dec user now).2 = user
    ∨ (getNextTaskWithoutSurvey dec user now).2 = { user with lastSurveyDate := some now } := by
  unfold getNextTaskWithoutSurvey
  split
  · exact Or.inl rfl
  · split
    · exact Or.inl rfl
    · split
      · exact Or.inl rfl
      · exact Or.inr rfl

theorem getNextTaskWithoutSurvey_some_inv (dec : String → String) (user : User) (now : Int)
    (r : SurveyResponse) (h : (getNextTaskWithoutSurvey dec user now).1 = some r) :
    ∃ inters task rest, user.interactions = some inters ∧
      inters.filter (eligibleSurveyFilter now) = task :: rest ∧
      r = { type := task.type, domain := dec task.domain,
            affirmative := task.affirmative, survey := true } ∧
      (getNextTaskWithoutSurvey dec user now).2 = { user with lastSurveyDate := some now } := by
  revert h
  unfold getNextTaskWithoutSurvey
  split
  · intro h; exact absurd h (by simp)
  · split
    · intro h; exact absurd h (by simp)
    · split
      · intro h; exact absurd h (by simp)
      · intro h
        refine ⟨_, _, _, by assumption, by assumption, ?_, rfl⟩
        exact (Option.some_inj.mp h).symm

theorem getNextTaskWithoutSurvey_debounced (dec : String → String) (user : User) (now : Int)
    (h : surveyDebounced user now = true) :
    getNextTaskWithoutSurvey dec user now = (none, user) := by
  unfold getNextTaskWithoutSurvey
  rw [h]
  simp

theorem createTwoFaTask_lastAccessDate (enc dec : String → String) (user : User) (d : String) :
    (createTwoFaTask enc dec user d).lastAccessDate = user.lastAccessDate := by
  simp only [createTwoFaTask]
  split <;> rfl

/-! ## Encryption codec (`crypto.js`, src/unnamed/part_000)

`encrypt` draws a 16-byte random IV, runs AES-256-CBC, and returns
`iv.toString("hex") + ":" + ciphertext.toString("hex")`; `decrypt` splits
the token on `":"`, hex-decodes the first part into the IV and the rest
into the ciphertext, deciphers, and utf8-decodes.  The AES core lives in
`node:crypto` (an external collaborator), so the block transformation is a
function parameter here; the randomness of `crypto.randomBytes(16)` is the
explicit `iv` argument.  The token format, the hex codec, the `":"`
split/join, and the utf8 byte codec are modelled concretely. -/

/-- Lowercase hex digit of a value below 16, as in `Buffer.toString("hex")`. -/
def hexDigitChar (n : Nat) : Char :=
  if n < 10 then Char.ofNat (48 + n) else Char.ofNat (87 + n)

/-- `Buffer.toString("hex")`: two lowercase digits per byte. -/
def bytesToHex : List Nat → List Char
  | [] => []
  | b :: rest => hexDigitChar (b / 16) :: hexDigitChar (b % 16) :: bytesToHex rest

/-- Value of one hex digit, both cases, as accepted by
`Buffer.from(s, "hex")`. -/
def hexVal (c : Char) : Option Nat :=
  if 48 ≤ c.toNat ∧ c.toNat ≤ 57 then some (c.toNat - 48)
  else if 97 ≤ c.toNat ∧ c.toNat ≤ 102 then some (c.toNat - 87)
  else if 65 ≤ c.toNat ∧ c.toNat ≤ 70 then some (c.toNat - 55)
  else none

/-- `Buffer.from(s, "hex")`: consume digit pairs, stop at the first
invalid pair or at a trailing odd digit. -/
def hexToBytes : List Char → List Nat
  | c1 :: c2 :: rest =>
    match hexVal c1, hexVal c2 with
    | some h, some l => (16 * h + l) :: hexToBytes rest
    | _, _ => []
  | _ => []

/-- UTF-8 bytes of one character (`Buffer.from(text)` encodes utf8). -/
def utf8EncodeChar (c : Char) : List Nat :=
  let n := c.toNat
  if n < 128 then [n]
  else if n < 2048 then [192 + n / 64, 128 + n % 64]
  else if n < 65536 then [224 + n / 4096, 128 + n / 64 % 64, 128 + n % 64]
  else [240 + n / 262144, 128 + n / 4096 % 64, 128 + n / 64 % 64, 128 + n % 64]

/-- UTF-8 bytes of a string. -/
def utf8Encode (s : String) : List Nat :=
  (s.data.map utf8EncodeChar).flatten

/-- UTF-8 decoding worker: one step per leading byte, with an explicit
step budget (each step consumes at least one byte, so any budget of at
least the list length gives the full decoding). -/
def utf8DecodeAux : Nat → List Nat → List Char
  | 0, _ => []
  | _ + 1, [] => []
  | fuel + 1, b :: rest =>
    if b < 128 then Char.ofNat b :: utf8DecodeAux fuel rest
    else if b < 224 then
      match rest with
      | b2 :: r => Char.ofNat ((b % 32) * 64 + b2 % 64) :: utf8DecodeAux fuel r
      | [] => []
    else if b < 240 then
      match rest with
      | b2 :: b3 :: r =>
        Char.ofNat ((b % 16) * 4096 + (b2 % 64) * 64 + b3 % 64) :: utf8DecodeAux fuel r
      | _ => []
    else
      match rest with
      | b2 :: b3 :: b4 :: r =>
        Char.ofNat ((b % 8) * 262144 + (b2 % 64) * 4096 + (b3 % 64) * 64 + b4 % 64)
          :: utf8DecodeAux fuel r
      | _ => []

/-- UTF-8 decoding (`buffer.toString()`), as it behaves on well-formed
input; recovery on ill-formed input differs from Node's replacement
characters but is never reached by the theorems below. -/
def utf8Decode (l : List Nat) : List Char := utf8DecodeAux l.length l

/-- JavaScript `String.prototype.split` with a one-character separator:
always returns at least one (possibly empty) part. -/
def jsSplit (sep : Char) : List Char → List (List Char)
  | [] => [[]]
  | c :: rest =>
    match jsSplit sep rest with
    | [] => [[c]]
    | p :: ps => if c = sep then [] :: p :: ps else (c :: p) :: ps

/-- `encrypt` (crypto.js lines 5-12): hex of the IV, a colon, hex of the
cipher output on the utf8 bytes of the plaintext.  `E` is the AES-256-CBC
encryption (update+final, padding included) under the configured key. -/
def encrypt (E : List Nat → List Nat → List Nat) (iv : List Nat) (text : String) : String :=
  String.mk (bytesToHex iv ++ ':' :: bytesToHex (E iv (utf8Encode text)))

/-- `decrypt` (crypto.js lines 14-22): split on `":"`, `shift()` the IV
hex, re-`join(":")` the remainder as the ciphertext hex, decipher with
`D`, utf8-decode.  `jsSplit` never returns `[]`, so the first branch is
unreachable (in the source, `shift()` of an empty array would feed
`undefined` to `Buffer.from` and throw). -/
def decrypt (D : List Nat → List Nat → List Nat) (text : String) : String :=
  match jsSplit ':' text.data with
  | [] => ""
  | ivHex :: rest =>
    let iv := hexToBytes ivHex
    let ct := hexToBytes (List.intercalate [':'] rest)
    String.mk (utf8Decode (D iv ct))

/-! ## Lemmas about the codec -/

theorem hexVal_hexDigitChar : ∀ n, n < 16 → hexVal (hexDigitChar n) = some n := by decide

theorem hexDigitChar_ne_colon : ∀ n, n < 16 → hexDigitChar n ≠ ':' := by decide

theorem bytesToHex_cons (b : Nat) (rest : List Nat) :
    bytesToHex (b :: rest)
      = hexDigitChar (b / 16) :: hexDigitChar (b % 16) :: bytesToHex rest := rfl

theorem hexToBytes_cons (c1 c2 : Char) (rest : List Char) :
    hexToBytes (c1 :: c2 :: rest)
      = match hexVal c1, hexVal c2 with
        | some h, some l => (16 * h + l) :: hexToBytes rest
        | _, _ => [] := rfl

theorem hexToBytes_bytesToHex (bs : List Nat) (h : ∀ b ∈ bs, b < 256) :
    hexToBytes (bytesToHex bs) = bs := by
  induction bs with
  | nil => rfl
  | cons b rest ih =>
    have hb : b < 256 := h b (by simp)
    rw [bytesToHex_cons, hexToBytes_cons,
      hexVal_hexDigitChar (b / 16) (by omega), hexVal_hexDigitChar (b % 16) (by omega)]
    show (16 * (b / 16) + b % 16) :: hexToBytes (bytesToHex rest) = b :: rest
    rw [ih (fun x hx => h x (by simp [hx]))]
    have hbb : 16 * (b / 16) + b % 16 = b := by omega
    rw [hbb]

theorem bytesToHex_ne_colon (bs : List Nat) (h : ∀ b ∈ bs, b < 256) :
    ∀ c ∈ bytesToHex bs, c ≠ ':' := by
  induction bs with
  | nil => intro c hc; simp [bytesToHex] at hc
  | cons b rest ih =>
    have hb : b < 256 := h b (by simp)
    intro c hc
    rw [bytesToHex_cons] at hc
    simp only [List.mem_cons] at hc
    rcases hc with rfl | rfl | hc
    · exact hexDigitChar_ne_colon _ (by omega)
    · exact hexDigitChar_ne_colon _ (by omega)
    · exact ih (fun x hx => h x (by simp [hx])) c hc

theorem jsSplit_nil (sep : Char) : jsSplit sep [] = [[]] := rfl

theorem jsSplit_cons (sep c : Char) (rest : List Char) :
    jsSplit sep (c :: rest)
      = match jsSplit sep rest with
        | [] => [[c]]
        | p :: ps => if c = sep then [] :: p :: ps else (c :: p) :: ps := rfl

theorem jsSplit_ne_nil (sep : Char) (l : List Char) : jsSplit sep l ≠ [] := by
  cases l with
  | nil => rw [jsSplit_nil]; simp
  | cons c rest =>
    rw [jsSplit_cons]
    cases jsSplit sep rest with
    | nil => simp
    | cons p ps => by_cases hc : c = sep <;> simp [hc]

theorem jsSplit_no_sep (l : List Char) (h : ∀ c ∈ l, c ≠ ':') : jsSplit ':' l = [l] := by
  induction l with
  | nil => rfl
  | cons c rest ih =>
    have hc : c ≠ ':' := h c (by simp)
    rw [jsSplit_cons, ih (fun x hx => h x (by simp [hx]))]
    simp [hc]

theorem jsSplit_append (a b : List Char) (h : ∀ c ∈ a, c ≠ ':') :
    jsSplit ':' (a ++ ':' :: b) = a :: jsSplit ':' b := by
  induction a with
  | nil =>
    show jsSplit ':' (':' :: b) = [] :: jsSplit ':' b
    rw [jsSplit_cons]
    cases hb : jsSplit ':' b with
    | nil => exact absurd hb (jsSplit_ne_nil ':' b)
    | cons p ps => simp
  | cons c rest ih =>
    have hc : c ≠ ':' := h c (by simp)
    show jsSplit ':' (c :: (rest ++ ':' :: b)) = (c :: rest) :: jsSplit ':' b
    rw [jsSplit_cons, ih (fun x hx => h x (by simp [hx]))]
    simp [hc]

theorem char_toNat_lt (c : Char) : c.toNat < 1114112 := by
  have h := c.valid
  show c.val.toNat < 1114112
  rcases h with h | h <;> omega

theorem utf8DecodeAux_one (fuel b : Nat) (rest : List Nat) (h : b < 128) :
    utf8DecodeAux (fuel + 1) (b :: rest) = Char.ofNat b :: utf8DecodeAux fuel rest := by
  conv_lhs => unfold utf8DecodeAux
  rw [if_pos h]

theorem utf8DecodeAux_two (fuel b b2 : Nat) (rest : List Nat)
    (h1 : ¬b < 128) (h2 : b < 224) :
    utf8DecodeAux (fuel + 1) (b :: b2 :: rest)
      = Char.ofNat ((b % 32) * 64 + b2 % 64) :: utf8DecodeAux fuel rest := by
  conv_lhs => unfold utf8DecodeAux
  rw [if_neg h1, if_pos h2]

theorem utf8DecodeAux_three (fuel b b2 b3 : Nat) (rest : List Nat)
    (h1 : ¬b < 128) (h2 : ¬b < 224) (h3 : b < 240) :
    utf8DecodeAux (fuel + 1) (b :: b2 :: b3 :: rest)
      = Char.ofNat ((b % 16) * 4096 + (b2 % 64) * 64 + b3 % 64) :: utf8DecodeAux fuel rest := by
  conv_lhs => unfold utf8DecodeAux
  rw [if_neg h1, if_neg h2, if_pos h3]

theorem utf8DecodeAux_four (fuel b b2 b3 b4 : Nat) (rest : List Nat)
    (h1 : ¬b < 128) (h2 : ¬b < 224) (h3 : ¬b < 240) :
    utf8DecodeAux (fuel + 1) (b :: b2 :: b3 :: b4 :: rest)
      = Char.ofNat ((b % 8) * 262144 + (b2 % 64) * 4096 + (b3 % 64) * 64 + b4 % 64)
        :: utf8DecodeAux fuel rest := by
  conv_lhs => unfold utf8DecodeAux
  rw [if_neg h1, if_neg h2, if_neg h3]

theorem utf8DecodeAux_encode (cs : List Char) :
    ∀ fuel, ((cs.map utf8EncodeChar).flatten).length ≤ fuel →
      utf8DecodeAux fuel ((cs.map utf8EncodeChar).flatten) = cs := by
  induction cs with
  | nil =>
    intro fuel _
    cases fuel with
    | zero => rfl
    | succ f => rfl
  | cons c cs ih =>
    intro fuel hlen
    have hval := char_toNat_lt c
    have hofNat := Char.ofNat_toNat c
    rw [List.map_cons, List.flatten_cons] at hlen ⊢
    by_cases h1 : c.toNat < 128
    · have henc : utf8EncodeChar c = [c.toNat] := by
        unfold utf8EncodeChar
        rw [if_pos h1]
      rw [henc] at hlen ⊢
      rw [List.singleton_append] at hlen ⊢
      cases fuel with
      | zero => simp at hlen
      | succ f =>
        rw [utf8DecodeAux_one f _ _ h1, hofNat,
          ih f (by simp only [List.length_cons] at hlen; omega)]
    · by_cases h2 : c.toNat < 2048
      · have henc : utf8EncodeChar c = [192 + c.toNat / 64, 128 + c.toNat % 64] := by
          unfold utf8EncodeChar
          rw [if_neg h1, if_pos h2]
        rw [henc] at hlen ⊢
        simp only [List.cons_append, List.nil_append] at hlen ⊢
        cases fuel with
        | zero => simp at hlen
        | succ f =>
          rw [utf8DecodeAux_two f _ _ _ (by omega) (by omega)]
          have harith : (192 + c.toNat / 64) % 32 * 64 + (128 + c.toNat % 64) % 64
              = c.toNat := by omega
          rw [harith, hofNat, ih f (by simp only [List.length_cons] at hlen; omega)]
      · by_cases h3 : c.toNat < 65536
        · have henc : utf8EncodeChar c
              = [224 + c.toNat / 4096, 128 + c.toNat / 64 % 64, 128 + c.toNat % 64] := by
            unfold utf8EncodeChar
            rw [if_neg h1, if_neg h2, if_pos h3]
          rw [henc] at hlen ⊢
          simp only [List.cons_append, List.nil_append] at hlen ⊢
          cases fuel with
          | zero => simp at hlen
          | succ f =>
            rw [utf8DecodeAux_three f _ _ _ _ (by omega) (by omega) (by omega)]
            have harith : (224 + c.toNat / 4096) % 16 * 4096
                + (128 + c.toNat / 64 % 64) % 64 * 64 + (128 + c.toNat % 64) % 64
                = c.toNat := by omega
            rw [harith, hofNat, ih f (by simp only [List.length_cons] at hlen; omega)]
        · have henc : utf8EncodeChar c
              = [240 + c.toNat / 262144, 128 + c.toNat / 4096 % 64,
                 128 + c.toNat / 64 % 64, 128 + c.toNat % 64] := by
            unfold utf8EncodeChar
            rw [if_neg h1, if_neg h2, if_neg h3]
          rw [henc] at hlen ⊢
          simp only [List.cons_append, List.nil_append] at hlen ⊢
          cases fuel with
          | zero => simp at hlen
          | succ f =>
            rw [utf8DecodeAux_four f _ _ _ _ _ (by omega) (by omega) (by omega)]
            have harith : (240 + c.toNat / 262144) % 8 * 262144
                + (128 + c.toNat / 4096 % 64) % 64 * 4096
                + (128 + c.toNat / 64 % 64) % 64 * 64 + (128 + c.toNat % 64) % 64
                = c.toNat := by omega
            rw [harith, hofNat, ih f (by simp only [List.length_cons] at hlen; omega)]

theorem utf8Decode_utf8Encode (s : String) : String.mk (utf8Decode (utf8Encode s)) = s := by
  show String.mk (utf8DecodeAux (utf8Encode s).length (utf8Encode s)) = s
  unfold utf8Encode
  rw [utf8DecodeAux_encode s.data _ le_rfl]

theorem intercalate_single {α : Type} (sep : List α) (l : List α) :
    List.intercalate sep [l] = l := by
  simp [List.intercalate]

theorem decrypt_encrypt (E D : List Nat → List Nat → List Nat) (iv : List Nat) (text : String)
    (hiv : ∀ b ∈ iv, b < 256)
    (hE : ∀ b ∈ E iv (utf8Encode text), b < 256)
    (hD : D iv (E iv (utf8Encode text)) = utf8Encode text) :
    decrypt D (encrypt E iv text) = text := by
  unfold encrypt decrypt
  dsimp only
  rw [jsSplit_append _ _ (bytesToHex_ne_colon iv hiv)]
  rw [jsSplit_no_sep _ (bytesToHex_ne_colon _ hE)]
  dsimp only
  rw [intercalate_single]
  rw [hexToBytes_bytesToHex iv hiv, hexToBytes_bytesToHex _ hE, hD]
  exact utf8Decode_utf8Encode text

theorem encrypt_iv_determined (E : List Nat → List Nat → List Nat) (iv : List Nat)
    (text : String) (hiv : ∀ b ∈ iv, b < 256) :
    hexToBytes ((jsSplit ':' (encrypt E iv text).data).headD []) = iv := by
  unfold encrypt
  dsimp only
  rw [jsSplit_append _ _ (bytesToHex_ne_colon iv hiv)]
  rw [List.headD_cons]
  exact hexToBytes_bytesToHex iv hiv

theorem encrypt_ne_of_iv_ne (E : List Nat → List Nat → List Nat) (iv1 iv2 : List Nat)
    (text : String) (hiv1 : ∀ b ∈ iv1, b < 256) (hiv2 : ∀ b ∈ iv2, b < 256)
    (hne : iv1 ≠ iv2) :
    encrypt E iv1 text ≠ encrypt E iv2 text := by
  intro heq
  apply hne
  have h1 := encrypt_iv_determined E iv1 text hiv1
  have h2 := encrypt_iv_determined E iv2 text hiv2
  rw [heq] at h1
  exact h1.symm.trans h2

/-! ## Concrete fixtures used by the closed theorems and witnesses -/

/-- A directory holding github.com, as the 2FA JSON data does. -/
def ghDirectory : List DirEntry := [{ domain := "github.com", additionalDomains := none }]

/-- Hostname parsing (the `URL` collaborator) restricted to the one url the
closed evaluations poll with. -/
def ghParse : Option String → Option String := fun u =>
  if u = some "https://github.com" then some "github.com" else none

/-- An established user with no tasks, no interactions and no cooldown
timestamps. -/
def freshUser : User :=
  { email := "u@x.com", initial := false, lastAccessDate := none,
    lastNotificationDate := none, lastSurveyDate := none, tasks := none,
    interactions := none }

/-- The state the C1 poll leaves behind: both cooldowns consumed and the
2FA task created. -/
def c1ExpectedUser : User :=
  { email := "u@x.com", initial := false, lastAccessDate := some 0,
    lastNotificationDate := some 0, lastSurveyDate := none,
    tasks := some [{ type := "2fa", domain := "github.com", account := none }],
    interactions := none }

/-! ## Claim C1 -/

/-- Claim C1: the spec scenario promises that a poll for a 2FA-directory
domain with no existing 2FA task and no interactions answers
`{type: "2fa", domain}` once the cooldown checks pass.  On the code the
created 2FA task has no `account` field, `getNextTask` throws while
decrypting `task.account`, and the poll answers "no content" instead —
while still creating the task and consuming both cooldowns.  This closed
evaluation of the handler at the scenario input exhibits the divergence. -/
theorem c1_popup_2fa_scenario_noContent :
    popup id id ghParse ghDirectory [] (some "u@x.com") (some "https://github.com")
      (some freshUser) 0 0 = (.noContent, some c1ExpectedUser) := by decide

/-! ## Claim C2 -/

/-- Claim C2: in `getNextTask`, `lastNotificationDate` is advanced before
the response object is built, so when the selected task lacks an `account`
field (as every TwoFactorAuth task does), the `decrypt(task.account)`
TypeError makes the function return no task while the 1-hour cooldown has
already been consumed: state is mutated on the error path. -/
theorem c2_cooldown_consumed_without_response
    (dec : String → String) (user : User) (now : Int) (rand : Nat) (task : Task)
    (hsel : (relevantTasksOf dec user)[rand]? = some task)
    (hrel : notifRelevant user now = true)
    (hacc : task.account = none) :
    getNextTask dec user now rand = (none, { user with lastNotificationDate := some now }) := by
  have hne : ¬(relevantTasksOf dec user).isEmpty = true := by
    rw [List.isEmpty_iff]
    intro h0
    rw [h0] at hsel
    simp at hsel
  unfold getNextTask
  rw [hrel]
  simp only [Bool.not_true, Bool.or_false]
  rw [if_neg hne, hsel]
  dsimp only
  rw [hacc]

/-- A user holding a single account-less 2FA task. -/
def lone2faUser : User :=
  { email := "u", initial := false, lastAccessDate := none, lastNotificationDate := none,
    lastSurveyDate := none,
    tasks := some [{ type := "2fa", domain := "gh", account := none }], interactions := none }

/-- Witness for C2 at the concrete single-2FA-task user. -/
theorem c2_cooldown_consumed_without_response_witness :
    getNextTask id lone2faUser 5 0
      = (none, { lone2faUser with lastNotificationDate := some 5 }) :=
  c2_cooldown_consumed_without_response id lone2faUser 5 0
    { type := "2fa", domain := "gh", account := none } (by decide) (by decide) rfl

/-! ## Claim C3 -/

/-- Claim C3: if `lastNotificationDate` is set and within one hour of
`now`, the scheduler returns no task and leaves the document untouched;
consequently, after any poll that did return a task, a poll in the
following hour returns none — never two tasks within a 1-hour window. -/
theorem c3_notification_cooldown (dec : String → String) (user : User)
    (t1 t2 : Int) (r1 r2 : Nat) :
    (∀ d, user.lastNotificationDate = some d → (t1 - d).natAbs ≤ 60 * 60 * 1000 →
        getNextTask dec user t1 r1 = (none, user))
    ∧ (∀ resp, (getNextTask dec user t1 r1).1 = some resp →
        (t2 - t1).natAbs ≤ 60 * 60 * 1000 →
        (getNextTask dec ((getNextTask dec user t1 r1).2) t2 r2).1 = none) := by
  constructor
  · intro d hd hle
    apply getNextTask_none_of_cooldown
    unfold notifRelevant
    rw [hd]
    rw [decide_eq_false_iff_not]
    exact Nat.not_lt.mpr hle
  · intro resp hsome hle
    obtain ⟨task, acc, hsel, hacc, heq⟩ := getNextTask_some_inv dec user t1 r1 resp hsome
    have hsnd : (getNextTask dec user t1 r1).2
        = { user with lastNotificationDate := some t1 } := by rw [heq]
    rw [hsnd]
    have hcool : notifRelevant { user with lastNotificationDate := some t1 } t2 = false := by
      unfold notifRelevant
      dsimp only
      rw [decide_eq_false_iff_not]
      exact Nat.not_lt.mpr hle
    rw [getNextTask_none_of_cooldown dec _ t2 r2 hcool]

/-- A user inside the notification cooldown window. -/
def cooledUser : User :=
  { email := "u", initial := false, lastAccessDate := none, lastNotificationDate := some 0,
    lastSurveyDate := none,
    tasks := some [{ type := "pw", domain := "d", account := some "a" }], interactions := none }

/-- A user whose single password task is returned by the scheduler. -/
def pwTaskUser : User :=
  { email := "u", initial := false, lastAccessDate := none, lastNotificationDate := none,
    lastSurveyDate := none,
    tasks := some [{ type := "pw", domain := "d", account := some "a" }], interactions := none }

/-- Witness for C3: the cooled user gets nothing, and after a poll that
returned the password task a second poll 1000 ms later returns none. -/
theorem c3_notification_cooldown_witness :
    getNextTask id cooledUser 1000 0 = (none, cooledUser)
    ∧ (getNextTask id ((getNextTask id pwTaskUser 0 0).2) 1000 1).1 = none :=
  ⟨(c3_notification_cooldown id cooledUser 1000 0 0 0).1 0 rfl (by decide),
   (c3_notification_cooldown id pwTaskUser 0 1000 0 1).2
     { type := "pw", domain := "d", account := some "a" } (by decide) (by decide)⟩

/-! ## Claim C4 -/

/-- Claim C4: a task response produced by the scheduler always corresponds
to a stored task for which no recorded interaction matches by type and
decrypted domain — the candidate set is the stored tasks minus the
addressed ones, independently of the task's `account` value. -/
theorem c4_dedup_invariant (dec : String → String) (user : User) (now : Int) (rand : Nat)
    (resp : TaskResponse) (h : (getNextTask dec user now rand).1 = some resp) :
    ∃ task, task ∈ user.tasks.getD []
      ∧ (∀ i ∈ user.interactions.getD [], ¬(i.type = task.type ∧ dec i.domain = dec task.domain))
      ∧ resp.type = task.type ∧ resp.domain = dec task.domain := by
  obtain ⟨task, acc, hsel, hacc, heq⟩ := getNextTask_some_inv dec user now rand resp h
  have hmem : task ∈ relevantTasksOf dec user := by
    rcases List.getElem?_eq_some.mp hsel with ⟨hlt, hget⟩
    exact hget ▸ List.getElem_mem hlt
  unfold relevantTasksOf at hmem
  rw [List.mem_filter] at hmem
  obtain ⟨htasks, hpred⟩ := hmem
  have hresp : resp = TaskResponse.mk task.type (dec task.domain)
      (if dec acc = "" then none else some (dec acc)) := by
    have h2 : (getNextTask dec user now rand).1
        = some (TaskResponse.mk task.type (dec task.domain)
            (if dec acc = "" then none else some (dec acc))) := by rw [heq]
    rw [h] at h2
    exact Option.some_inj.mp h2
  subst hresp
  refine ⟨task, htasks, ?_, rfl, rfl⟩
  intro i hi hcontra
  have hany : ((user.interactions.getD []).any fun i =>
      i.type == task.type && dec i.domain == dec task.domain) = false := by
    simpa using hpred
  have hno := List.any_eq_false.mp hany i hi
  apply hno
  simp [hcontra.1, hcontra.2]

/-- Witness for C4 at the concrete password-task user. -/
theorem c4_dedup_invariant_witness :
    ∃ task, task ∈ pwTaskUser.tasks.getD []
      ∧ (∀ i ∈ pwTaskUser.interactions.getD [],
          ¬(i.type = task.type ∧ id i.domain = id task.domain))
      ∧ (TaskResponse.mk "pw" "d" (some "a")).type = task.type
      ∧ (TaskResponse.mk "pw" "d" (some "a")).domain = id task.domain :=
  c4_dedup_invariant id pwTaskUser 0 0 (TaskResponse.mk "pw" "d" (some "a")) (by decide)

/-! ## Claim C5 -/

/-- A user whose only interaction is dated 20 minutes in the future of the
poll instant `now = 0`. -/
def futureInteractionUser : User :=
  { email := "u", initial := false, lastAccessDate := none, lastNotificationDate := none,
    lastSurveyDate := none, tasks := none,
    interactions := some [{ date := 1200000, type := "pw", domain := "x",
                            affirmative := none, survey := none }] }

/-- Claim C5 counterexample: at `now = 0` the survey gate returns a payload
for the only stored interaction although every stored interaction is dated
*after* `now` — so the returned interaction's date is not "more than 10
minutes before now" as claimed: the source filters on `Math.abs` of the
difference, which future-dated interactions also pass. -/
theorem c5_counterexample_future_interaction :
    ((getNextTaskWithoutSurvey id futureInteractionUser 0).1
      = some { type := "pw", domain := "x", affirmative := none, survey := true })
    ∧ ∀ i ∈ futureInteractionUser.interactions.getD [], 0 < i.date := by decide

/-- Claim C5 (amended): the returned interaction has `survey` absent and
its date differs from `now` by more than ten minutes *in absolute value*
(the claim said "more than 10 minutes before now"; the code compares
`Math.abs` of the difference, so the sign is not fixed); the 1-minute
debounce holds as claimed, and after a return the gate yields nothing for
one minute. -/
theorem c5_survey_gate_amended (dec : String → String) (user : User) (now t2 : Int) :
    (∀ d, user.lastSurveyDate = some d → (now - d).natAbs < 60 * 1000 →
        getNextTaskWithoutSurvey dec user now = (none, user))
    ∧ (∀ r, (getNextTaskWithoutSurvey dec user now).1 = some r →
        ∃ i ∈ user.interactions.getD [], i.survey = none
          ∧ 10 * 60 * 1000 < (i.date - now).natAbs
          ∧ r.type = i.type ∧ r.domain = dec i.domain ∧ r.affirmative = i.affirmative)
    ∧ (∀ r, (getNextTaskWithoutSurvey dec user now).1 = some r →
        (t2 - now).natAbs < 60 * 1000 →
        (getNextTaskWithoutSurvey dec ((getNextTaskWithoutSurvey dec user now).2) t2).1
          = none) := by
  refine ⟨?_, ?_, ?_⟩
  · intro d hd hlt
    apply getNextTaskWithoutSurvey_debounced
    unfold surveyDebounced
    rw [hd]
    exact decide_eq_true hlt
  · intro r hr
    obtain ⟨inters, task, rest, hinters, hfilter, hrv, hsnd⟩ :=
      getNextTaskWithoutSurvey_some_inv dec user now r hr
    have hmem : task ∈ inters.filter (eligibleSurveyFilter now) := by
      rw [hfilter]
      exact List.mem_cons_self task rest
    rw [List.mem_filter] at hmem
    obtain ⟨hin, hel⟩ := hmem
    unfold eligibleSurveyFilter at hel
    simp only [Bool.and_eq_true, beq_iff_eq, decide_eq_true_eq] at hel
    refine ⟨task, ?_, hel.1, hel.2, ?_, ?_, ?_⟩
    · rw [hinters]
      simpa using hin
    · rw [hrv]
    · rw [hrv]
    · rw [hrv]
  · intro r hr hlt
    obtain ⟨inters, task, rest, hinters, hfilter, hrv, hsnd⟩ :=
      getNextTaskWithoutSurvey_some_inv dec user now r hr
    rw [hsnd]
    apply congrArg Prod.fst (getNextTaskWithoutSurvey_debounced dec _ t2 ?_)
    unfold surveyDebounced
    dsimp only
    exact decide_eq_true hlt

/-- A user presently inside the survey debounce window. -/
def surveyedUser : User :=
  { email := "u", initial := false, lastAccessDate := none, lastNotificationDate := none,
    lastSurveyDate := some 0, tasks := none,
    interactions := some [{ date := 1200000, type := "pw", domain := "x",
                            affirmative := none, survey := none }] }

/-- Witness for the amended C5: the debounced user gets nothing; the
future-interaction user gets a payload whose source interaction is more
than ten minutes from `now`; and 30 s after that return the gate is
silent. -/
theorem c5_survey_gate_amended_witness :
    getNextTaskWithoutSurvey id surveyedUser 1000 = (none, surveyedUser)
    ∧ (∃ i ∈ futureInteractionUser.interactions.getD [], i.survey = none
        ∧ 10 * 60 * 1000 < (i.date - 0).natAbs
        ∧ (SurveyResponse.mk "pw" "x" none true).type = i.type
        ∧ (SurveyResponse.mk "pw" "x" none true).domain = id i.domain
        ∧ (SurveyResponse.mk "pw" "x" none true).affirmative = i.affirmative)
    ∧ (getNextTaskWithoutSurvey id
        ((getNextTaskWithoutSurvey id futureInteractionUser 0).2) 30000).1 = none :=
  ⟨(c5_survey_gate_amended id surveyedUser 1000 0).1 0 rfl (by decide),
   (c5_survey_gate_amended id futureInteractionUser 0 0).2.1
     (SurveyResponse.mk "pw" "x" none true) (by decide),
   (c5_survey_gate_amended id futureInteractionUser 0 30000).2.2
     (SurveyResponse.mk "pw" "x" none true) (by decide) (by decide)⟩

/-! ## Claim C6 -/

/-- A user with two eligible interactions stored newest-first: the first
stored one is dated 4000000, the older one 1000000, polled at 5000000. -/
def newestFirstUser : User :=
  { email := "u", initial := false, lastAccessDate := none, lastNotificationDate := none,
    lastSurveyDate := none, tasks := none,
    interactions := some [
      { date := 4000000, type := "pw", domain := "newer", affirmative := none, survey := none },
      { date := 1000000, type := "2fa", domain := "older", affirmative := none, survey := none } ] }

/-- Claim C6: the spec says the survey gate selects the *oldest* eligible
interaction.  The source sorts with `(a, b) => a.date - b.date` over
locale-string dates, a `NaN` comparator that leaves the array unsorted, so
the gate returns the first stored eligible interaction: here the payload
of the date-4000000 interaction (`"newer"`) although an eligible one dated
1000000 is also stored. -/
theorem c6_first_stored_returned_not_oldest :
    ((getNextTaskWithoutSurvey id newestFirstUser 5000000).1
      = some { type := "pw", domain := "newer", affirmative := none, survey := true })
    ∧ (∃ i ∈ newestFirstUser.interactions.getD [],
        eligibleSurveyFilter 5000000 i = true ∧ i.date < 4000000) := by decide

/-! ## Claim C7 -/

/-- Claim C7: a poll by an existing user inside the 5-minute access window
answers "no content" at once with the document untouched; any other poll
by an existing user leaves a document whose `lastAccessDate` has been
advanced to `now` before the remaining stages ran. -/
theorem c7_access_gate (enc dec : String → String)
    (parseHostname : Option String → Option String) (directory : List DirEntry)
    (breaches : List Breach) (email url domain : String) (user : User) (now : Int)
    (rand : Nat) (hemail : email ≠ "") (hurl : parseHostname (some url) = some domain) :
    (∀ d, user.lastAccessDate = some d → (now - d).natAbs < 5 * 60 * 1000 →
        popup enc dec parseHostname directory breaches (some email) (some url) (some user)
          now rand = (.noContent, some user))
    ∧ (accessThrottled user now = false →
        ∃ u2, (popup enc dec parseHostname directory breaches (some email) (some url)
            (some user) now rand).2 = some u2 ∧ u2.lastAccessDate = some now) := by
  constructor
  · intro d hd hlt
    have hth : accessThrottled user now = true := by
      unfold accessThrottled
      rw [hd]
      exact decide_eq_true hlt
    unfold popup
    rw [if_neg (by simpa using hemail), hurl]
    dsimp only
    rw [if_pos hth]
  · intro hth
    unfold popup
    rw [if_neg (by simpa using hemail), hurl]
    dsimp only
    rw [if_neg (by simp [hth])]
    by_cases hini : user.initial
    · rw [if_pos hini]
      exact ⟨_, rfl, rfl⟩
    · rw [if_neg hini]
      rcases hg : getNextTaskWithoutSurvey dec { user with lastAccessDate := some now } now
        with ⟨os, u2⟩
      have hu2 : u2.lastAccessDate = some now := by
        have hd2 := getNextTaskWithoutSurvey_snd dec { user with lastAccessDate := some now } now
        rw [hg] at hd2
        rcases hd2 with hcase | hcase
        · rw [show u2 = { user with lastAccessDate := some now } from hcase]
        · rw [show u2 = _ from hcase]
      cases os with
      | some s => exact ⟨u2, rfl, hu2⟩
      | none =>
        show ∃ u3, (match getNextTask dec (if check2FA directory domain
              then createTwoFaTask enc dec u2 domain else u2) now rand with
            | (some t, user4) => (PopupResult.taskPayload t, some user4)
            | (none, user4) => (PopupResult.noContent, some user4)).2 = some u3
            ∧ u3.lastAccessDate = some now
        rcases hg2 : getNextTask dec (if check2FA directory domain
            then createTwoFaTask enc dec u2 domain else u2) now rand with ⟨ot, u4⟩
        have hbase : (if check2FA directory domain then createTwoFaTask enc dec u2 domain
            else u2).lastAccessDate = some now := by
          by_cases hc : check2FA directory domain
          · rw [if_pos hc, createTwoFaTask_lastAccessDate]
            exact hu2
          · rw [if_neg hc]
            exact hu2
        have hu4 : u4.lastAccessDate = some now := by
          have hd4 := getNextTask_snd dec (if check2FA directory domain
              then createTwoFaTask enc dec u2 domain else u2) now rand
          rw [hg2] at hd4
          rcases hd4 with hcase | hcase
          · rw [show u4 = _ from hcase]
            exact hbase
          · rw [show u4 = _ from hcase]
            exact hbase
        cases ot with
        | some t => exact ⟨u4, rfl, hu4⟩
        | none => exact ⟨u4, rfl, hu4⟩

/-- An established user polled again 1 s after the last access. -/
def recentAccessUser : User :=
  { email := "u@x.com", initial := false, lastAccessDate := some 0,
    lastNotificationDate := none, lastSurveyDate := none, tasks := none,
    interactions := none }

/-- Witness for C7: the recently accessed user is throttled; the fresh
user's poll advances `lastAccessDate`. -/
theorem c7_access_gate_witness :
    popup id id ghParse ghDirectory [] (some "u@x.com") (some "https://github.com")
      (some recentAccessUser) 1000 0 = (.noContent, some recentAccessUser)
    ∧ ∃ u2, (popup id id ghParse ghDirectory [] (some "u@x.com")
        (some "https://github.com") (some freshUser) 0 0).2 = some u2
        ∧ u2.lastAccessDate = some 0 :=
  ⟨(c7_access_gate id id ghParse ghDirectory [] "u@x.com" "https://github.com" "github.com"
      recentAccessUser 1000 0 (by decide) (by decide)).1 0 rfl (by decide),
   (c7_access_gate id id ghParse ghDirectory [] "u@x.com" "https://github.com" "github.com"
      freshUser 0 0 (by decide) (by decide)).2 (by decide)⟩

/-! ## Claim C8 -/

/-- Replacing the `interactions` array of a user document, leaving every
other field alone (the shape of the `/survey` `$set`). -/
def setInteractions (user : User) (l : List Interaction) : User :=
  { user with interactions := some l }

/-- Claim C8: a `/survey` submission whose `(type, decrypted domain)`
matches no open interaction answers "bad request" and writes nothing; when
a match exists (and stored ciphertexts are pairwise distinct, as fresh
random IVs make them), exactly the `survey` field of one matching
interaction is written, from absent to present. -/
theorem c8_survey_submission (dec : String → String) (user : User)
    (inters : List Interaction) (taskType domain feedback : String)
    (hu : user.interactions = some inters) :
    ((∀ i ∈ inters, ¬(i.type = taskType ∧ dec i.domain = domain ∧ i.survey = none)) →
        submitSurvey dec (some user) taskType domain feedback = (.badRequest, some user))
    ∧ (∀ found, inters.find? (openInteractionPred dec taskType domain) = some found →
        inters.Pairwise (fun a b => a.domain ≠ b.domain) →
        ∃ l1 l2, inters = l1 ++ found :: l2 ∧ found.type = taskType
          ∧ dec found.domain = domain ∧ found.survey = none
          ∧ submitSurvey dec (some user) taskType domain feedback
            = (.created, some (setInteractions user
                (l1 ++ { found with survey := some feedback } :: l2)))) := by
  constructor
  · intro hnone
    have hfind : inters.find? (openInteractionPred dec taskType domain) = none := by
      rw [List.find?_eq_none]
      intro x hx
      have hno := hnone x hx
      simp only [openInteractionPred, Bool.and_eq_true, beq_iff_eq]
      tauto
    unfold submitSurvey
    dsimp only
    rw [hu]
    dsimp only
    rw [hfind]
  · intro found hfind hpw
    have hpred := List.find?_some hfind
    simp only [openInteractionPred, Bool.and_eq_true, beq_iff_eq] at hpred
    obtain ⟨⟨hty, hdom⟩, hsv⟩ := hpred
    have hmem := List.mem_of_find?_eq_some hfind
    obtain ⟨l1, l2, hsplit⟩ := List.append_of_mem hmem
    subst hsplit
    refine ⟨l1, l2, rfl, hty, hdom, hsv, ?_⟩
    unfold submitSurvey
    dsimp only
    rw [hu]
    dsimp only
    rw [hfind]
    have hupd : applySurveyUpdate found feedback (l1 ++ found :: l2)
        = l1 ++ { found with survey := some feedback } :: l2 := by
      unfold applySurveyUpdate
      rw [List.map_append, List.map_cons]
      rw [List.pairwise_append] at hpw
      obtain ⟨hpw1, hpw2, hcross⟩ := hpw
      obtain ⟨hfound2, hpwl2⟩ := List.pairwise_cons.mp hpw2
      have hl1 : l1.map (fun i =>
          if i.type == found.type && i.domain == found.domain && i.survey == none then
            { i with survey := some feedback } else i) = l1 := by
        have hids : ∀ a ∈ l1, (fun i =>
            if i.type == found.type && i.domain == found.domain && i.survey == none then
              { i with survey := some feedback } else i) a = a := by
          intro a ha
          have hne : a.domain ≠ found.domain :=
            hcross a ha found (List.mem_cons_self _ _)
          have hbeq : (a.domain == found.domain) = false := by
            simpa using hne
          simp [hbeq]
        rw [List.map_congr_left hids]
        simp
      have hl2 : l2.map (fun i =>
          if i.type == found.type && i.domain == found.domain && i.survey == none then
            { i with survey := some feedback } else i) = l2 := by
        have hids : ∀ a ∈ l2, (fun i =>
            if i.type == found.type && i.domain == found.domain && i.survey == none then
              { i with survey := some feedback } else i) a = a := by
          intro a ha
          have hne : a.domain ≠ found.domain := (hfound2 a ha).symm
          have hbeq : (a.domain == found.domain) = false := by
            simpa using hne
          simp [hbeq]
        rw [List.map_congr_left hids]
        simp
      rw [hl1, hl2]
      simp [hsv]
    dsimp only
    rw [hupd]
    rfl

/-- A user with one open interaction for `(pw, da)`. -/
def openInteractionUser : User :=
  { email := "u", initial := false, lastAccessDate := none, lastNotificationDate := none,
    lastSurveyDate := none, tasks := none,
    interactions := some [{ date := 0, type := "pw", domain := "da",
                            affirmative := some true, survey := none }] }

/-- Witness for C8: a submission for an unmatched domain is rejected with
no write, and a matching one writes exactly the open interaction's
`survey` field. -/
theorem c8_survey_submission_witness :
    submitSurvey id (some openInteractionUser) "pw" "zzz" "fb"
      = (.badRequest, some openInteractionUser)
    ∧ ∃ l1 l2, [Interaction.mk 0 "pw" "da" (some true) none] = l1
        ++ Interaction.mk 0 "pw" "da" (some true) none :: l2
      ∧ (Interaction.mk 0 "pw" "da" (some true) none).type = "pw"
      ∧ id (Interaction.mk 0 "pw" "da" (some true) none).domain = "da"
      ∧ (Interaction.mk 0 "pw" "da" (some true) none).survey = none
      ∧ submitSurvey id (some openInteractionUser) "pw" "da" "fb"
        = (.created, some (setInteractions openInteractionUser
            (l1 ++ { Interaction.mk 0 "pw" "da" (some true) none with
                     survey := some "fb" } :: l2))) :=
  ⟨(c8_survey_submission id openInteractionUser
      [Interaction.mk 0 "pw" "da" (some true) none] "pw" "zzz" "fb" rfl).1 (by decide),
   (c8_survey_submission id openInteractionUser
      [Interaction.mk 0 "pw" "da" (some true) none] "pw" "da" "fb" rfl).2
     (Interaction.mk 0 "pw" "da" (some true) none) (by decide) (by simp)⟩

/-! ## Claim C9 -/

/-- Claim C9: with the per-call randomness of `crypto.randomBytes(16)`
made explicit as the IV argument, two encryptions of one plaintext under
distinct IV draws yield distinct tokens (the token embeds the IV in hex
before the first colon), and decryption recovers the identical plaintext
from either token.  `E`/`D` stand for the AES-256-CBC core of
`node:crypto` under the configured key; its collaborator contract — `D`
inverts `E` and ciphertexts are bytes — enters as hypotheses at the used
points. -/
theorem c9_encrypt_roundtrip (E D : List Nat → List Nat → List Nat)
    (iv1 iv2 : List Nat) (text : String)
    (hiv1 : ∀ b ∈ iv1, b < 256) (hiv2 : ∀ b ∈ iv2, b < 256) (hne : iv1 ≠ iv2)
    (hE1 : ∀ b ∈ E iv1 (utf8Encode text), b < 256)
    (hE2 : ∀ b ∈ E iv2 (utf8Encode text), b < 256)
    (hD1 : D iv1 (E iv1 (utf8Encode text)) = utf8Encode text)
    (hD2 : D iv2 (E iv2 (utf8Encode text)) = utf8Encode text) :
    encrypt E iv1 text ≠ encrypt E iv2 text
    ∧ decrypt D (encrypt E iv1 text) = text
    ∧ decrypt D (encrypt E iv2 text) = text :=
  ⟨encrypt_ne_of_iv_ne E iv1 iv2 text hiv1 hiv2 hne,
   decrypt_encrypt E D iv1 text hiv1 hE1 hD1,
   decrypt_encrypt E D iv2 text hiv2 hE2 hD2⟩

/-- Witness for C9 with the identity byte transformation standing in for
the cipher core and the IV draws `[0]` and `[255]`. -/
theorem c9_encrypt_roundtrip_witness :
    encrypt (fun _ b => b) [0] "ok" ≠ encrypt (fun _ b => b) [255] "ok"
    ∧ decrypt (fun _ b => b) (encrypt (fun _ b => b) [0] "ok") = "ok"
    ∧ decrypt (fun _ b => b) (encrypt (fun _ b => b) [255] "ok") = "ok" :=
  c9_encrypt_roundtrip (fun _ b => b) (fun _ b => b) [0] [255] "ok"
    (by decide) (by decide) (by decide) (by decide) (by decide) rfl rfl

/-! ## Claim C10 -/

/-- Claim C10: a `/popup` request that carries an email but whose `url` is
absent or not parseable throws in `new URL(req.body.url).hostname` before
any user-state read or write: the request ends in a server error, not the
documented "bad request" or "no content", and no state is mutated. -/
theorem c10_unparseable_url (enc dec : String → String)
    (parseHostname : Option String → Option String) (directory : List DirEntry)
    (breaches : List Breach) (email : String) (url? : Option String)
    (user? : Option User) (now : Int) (rand : Nat)
    (hemail : email ≠ "") (hurl : parseHostname url? = none) :
    popup enc dec parseHostname directory breaches (some email) url? user? now rand
      = (.serverError, user?) := by
  unfold popup
  rw [if_neg (by simpa using hemail), hurl]

/-- Witness for C10: a poll with an email and no url ends in the server
error with the store untouched. -/
theorem c10_unparseable_url_witness :
    popup id id (fun _ => none) [] [] (some "u@x.com") none (some freshUser) 0 0
      = (.serverError, some freshUser) :=
  c10_unparseable_url id id (fun _ => none) [] [] "u@x.com" none (some freshUser) 0 0
    (by decide) rfl

end OpportuneMoments
